import Mathlib

/-!
# Verification of the content-scraper ingestion & scoring pipeline

Shallow embedding, in Lean 4, of the deco-sites/content-scraper code base
(Deno/TypeScript).  JavaScript numbers are modelled as rationals (`ℚ`);
`NaN`, which can arise from JS numeric coercion of non-numeric values, is
modelled as `none` in `Option ℚ`.  JavaScript strings are modelled as Lean
`String` (or `List Char` where character-level slicing from the source is
involved).  Stateful database access is modelled by explicit state passing
over in-memory row lists; the remote SQL proxy is assumed to execute the
statements the code builds (existence checks are `COUNT(*) > 0` over the
corresponding column, inserts append a row, as in `src/lib/db.ts`).
Network fetches and the LLM are modelled as oracles (function parameters).
-/

-- =========================================================================
-- JS numeric primitives (src/lib/utils.ts)
-- =========================================================================

/-- JavaScript `Math.round x` for a rational model of JS numbers:
rounds to the nearest integer, halves toward `+∞`, i.e. `⌊x + 1/2⌋`. -/
def jsRound (x : ℚ) : ℤ := ⌊x + 1/2⌋

/-- `calculatePostScore` from `src/lib/utils.ts` (lines 61–67):
`score = qualityScore * 0.7 + authority * 0.3`, then
`Math.round(score * 100) / 100` (round to 2 decimal places). -/
def calculatePostScore (qualityScore authority : ℚ) : ℚ :=
  (jsRound ((qualityScore * (7/10) + authority * (3/10)) * 100) : ℚ) / 100

-- =========================================================================
-- JS Date environment and the two week-label computations
-- =========================================================================

/-- Abstraction of the ambient JavaScript `Date` library (local time zone,
calendar arithmetic).  A JS `Date` value is identified with its epoch
milliseconds.  `fullYear t` models `new Date(t).getFullYear()`,
`jan1Time y` models `new Date(y, 0, 1).getTime()`, `jan1Day y` models
`new Date(y, 0, 1).getDay()`, and `isoDateStr t` models
`new Date(t).toISOString()`. -/
structure JSDateEnv where
  fullYear : ℤ → ℤ
  jan1Time : ℤ → ℤ
  jan1Day : ℤ → ℕ
  isoDateStr : ℤ → String

/-- JavaScript `String.prototype.padStart(2, "0")`. -/
def padStart2 (s : String) : String :=
  if 2 ≤ s.length then s
  else String.mk (List.replicate (2 - s.length) '0') ++ s

/-- `getPublicationWeek` from `src/lib/utils.ts` (lines 15–24), applied to a
date given in epoch milliseconds:
`year = date.getFullYear(); firstDayOfYear = new Date(year, 0, 1);`
`pastDaysOfYear = (date.getTime() - firstDayOfYear.getTime()) / 86400000;`
`weekNumber = Math.ceil((pastDaysOfYear + firstDayOfYear.getDay() + 1) / 7);`
returns `` `${year}-w${weekNumber.toString().padStart(2, "0")}` ``. -/
def getPublicationWeek (env : JSDateEnv) (dateMs : ℤ) : String :=
  let year := env.fullYear dateMs
  let pastDaysOfYear : ℚ := ((dateMs : ℚ) - (env.jan1Time year : ℚ)) / 86400000
  let weekNumber : ℤ := ⌈(pastDaysOfYear + (env.jan1Day year : ℚ) + 1) / 7⌉
  toString year ++ "-w" ++ padStart2 (toString weekNumber)

/-- `getWeekDate` from `src/lib/reddit-scraper.ts` (lines 27–35), an
independent reimplementation of the same week computation, applied to a Unix
timestamp in seconds: `date = new Date(timestamp * 1000);` then the same
year / `Math.ceil` formula and `` `${year}-w${String(weekNum).padStart(2, "0")}` ``. -/
def getWeekDate (env : JSDateEnv) (timestamp : ℤ) : String :=
  let dateMs : ℤ := timestamp * 1000
  let year := env.fullYear dateMs
  let weekNum : ℤ :=
    ⌈(((dateMs : ℚ) - (env.jan1Time year : ℚ)) / 86400000 + (env.jan1Day year : ℚ) + 1) / 7⌉
  toString year ++ "-w" ++ padStart2 (toString weekNum)

/-- `formatDate` from `src/lib/utils.ts`: `date.toISOString().split("T")[0]`. -/
def formatDate (env : JSDateEnv) (dateMs : ℤ) : String :=
  (env.isoDateStr dateMs).takeWhile (fun c => c ≠ 'T')

/-- `isWithinLastWeek` from `src/lib/utils.ts` (lines 29–33).  The source
computes `oneWeekAgo` from the current clock via `setDate(getDate() - 7)`;
that calendar computation is passed in as `oneWeekAgoMs`.  The comparison
`date >= oneWeekAgo` compares epoch milliseconds. -/
def isWithinLastWeek (oneWeekAgoMs dateMs : ℤ) : Bool :=
  oneWeekAgoMs ≤ dateMs

/-- `hasMinimumContent` from `src/lib/utils.ts` (lines 224–226):
`content.length >= minLength`. -/
def hasMinimumContent (content : String) (minLength : ℕ) : Bool :=
  minLength ≤ content.length

-- =========================================================================
-- JavaScript values (results of JSON.parse) and coercions
-- =========================================================================

/-- A JavaScript value as produced by `JSON.parse` (plus `undefined`, which
property access on a non-object yields).  JS numbers are rationals here;
`JSON.parse` never produces `NaN` or `Infinity`. -/
inductive JSValue where
  | undefined : JSValue
  | null : JSValue
  | bool (b : Bool) : JSValue
  | num (q : ℚ) : JSValue
  | str (s : String) : JSValue
  | arr (elems : List JSValue) : JSValue
  | obj (fields : List (String × JSValue)) : JSValue

/-- JS truthiness (`Boolean(v)`) of a `JSValue`. -/
def jsTruthy : JSValue → Bool
  | .undefined => false
  | .null => false
  | .bool b => b
  | .num q => decide (q ≠ 0)
  | .str s => decide (s ≠ "")
  | .arr _ => true
  | .obj _ => true

/-- JS `a || b`: returns `a` when truthy, else `b`. -/
def jsOr (a b : JSValue) : JSValue := if jsTruthy a then a else b

/-- Property access `v[k]` on a JS object; on any non-object (other than
`undefined`/`null`, whose property access throws and is handled separately)
it yields `undefined`. -/
def JSValue.getField : JSValue → String → JSValue
  | .obj fields, k =>
    match fields.find? (fun p => p.1 = k) with
    | some p => p.2
    | none => .undefined
  | _, _ => .undefined

/-- Whether a `JSValue` is an object (record). -/
def JSValue.isObj : JSValue → Bool
  | .obj _ => true
  | _ => false

/-- Model of JS `ToNumber` on a decimal string (used by `Math.min`/`Math.max`
coercion): whitespace-trimmed empty string is `0`; an optional sign followed
by decimal digits with an optional fractional part parses to that rational;
anything else is `NaN` (`none`).  Exponent, hex and `Infinity` forms are not
modelled (they coerce to numbers in JS but never occur in this code's data;
mapping them to `none` only widens the `NaN` case). -/
def strToNumber (s : String) : Option ℚ :=
  let t := s.trim.data
  match t with
  | [] => some 0
  | _ =>
    let signAndRest : ℚ × List Char :=
      match t with
      | '-' :: r => (-1, r)
      | '+' :: r => (1, r)
      | r => (1, r)
    let intPart := signAndRest.2.takeWhile (fun c => c ≠ '.')
    let afterInt := signAndRest.2.dropWhile (fun c => c ≠ '.')
    let digitsVal (cs : List Char) : ℚ :=
      cs.foldl (fun acc c => acc * 10 + ((c.toNat - 48 : ℕ) : ℚ)) 0
    match afterInt with
    | [] =>
      if intPart ≠ [] ∧ intPart.all Char.isDigit then
        some (signAndRest.1 * digitsVal intPart)
      else none
    | _ :: fracPart =>
      if (intPart ≠ [] ∨ fracPart ≠ []) ∧ intPart.all Char.isDigit ∧
          fracPart.all Char.isDigit then
        some (signAndRest.1 *
          (digitsVal intPart + digitsVal fracPart / (10 : ℚ) ^ fracPart.length))
      else none

/-- JS `ToNumber` coercion of a `JSValue`; `none` models `NaN`.
(`ToNumber` of an array goes through its string form: `[]` is `0`; a
non-empty array is conservatively modelled as `NaN`, which is exact except
for single-element arrays holding a numeric value.) -/
def toNumber : JSValue → Option ℚ
  | .undefined => none
  | .null => some 0
  | .bool b => some (if b then 1 else 0)
  | .num q => some q
  | .str s => strToNumber s
  | .arr [] => some 0
  | .arr (_ :: _) => none
  | .obj _ => none

/-- JS `Math.min(a, b)` after `ToNumber` coercion: `NaN` propagates. -/
def jsMin (a b : Option ℚ) : Option ℚ :=
  match a, b with
  | some x, some y => some (min x y)
  | _, _ => none

/-- JS `Math.max(a, b)` after `ToNumber` coercion: `NaN` propagates. -/
def jsMax (a b : Option ℚ) : Option ℚ :=
  match a, b with
  | some x, some y => some (max x y)
  | _, _ => none

-- =========================================================================
-- parseJsonResponse (src/unnamed/part_001, lines 92-107)
-- =========================================================================

/-- Characters treated as whitespace by JS `String.prototype.trim` (the
ASCII ones; the exotic Unicode space characters never border the markdown
fences this code strips). -/
def jsWs (c : Char) : Bool :=
  c = ' ' ∨ c = '\t' ∨ c = '\n' ∨ c = '\r' ∨ c = '\x0c' ∨ c = '\x0b'

/-- JS `String.prototype.trim` over a character list. -/
def jsTrim (l : List Char) : List Char :=
  ((l.dropWhile jsWs).reverse.dropWhile jsWs).reverse

/-- The backtick character (U+0060). -/
def backtick : Char := '\x60'

/-- The characters of the bare markdown fence (three backticks). -/
def fenceChars : List Char := [backtick, backtick, backtick]

/-- The characters of the json markdown fence (three backticks then
`json`). -/
def jsonFenceChars : List Char := [backtick, backtick, backtick, 'j', 's', 'o', 'n']

/-- `parseJsonResponse` from the LLM client (`src/unnamed/part_001`, lines
92–107), with `JSON.parse` abstracted as the `parse` oracle (`none` models a
thrown `SyntaxError`):
`jsonStr = content.trim()`; strip a leading `"```json"` (slice 7) else a
leading `"```"` (slice 3); strip a trailing `"```"` (slice 0, -3); then
`JSON.parse(jsonStr.trim())`. -/
def parseJsonResponse (parse : List Char → Option JSValue)
    (content : List Char) : Option JSValue :=
  let j0 := jsTrim content
  let j1 :=
    if jsonFenceChars.isPrefixOf j0 then j0.drop 7
    else if fenceChars.isPrefixOf j0 then j0.drop 3
    else j0
  let j2 := if fenceChars.isSuffixOf j1 then j1.take (j1.length - 3) else j1
  parse (jsTrim j2)

-- =========================================================================
-- LLM analysis normalization (src/unnamed/part_001, lines 169-324)
-- =========================================================================

/-- The object `analyzeArticle` returns to its caller (the runtime value;
`summary` may be any truthy JS value when the payload is malformed, so it is
kept as a `JSValue`).  `quality_score` is `Option ℚ` because JS coercion can
produce `NaN` (`none`). -/
structure ArticleAnalysisResult where
  is_mcp_related : Bool
  summary : JSValue
  key_points : List JSValue
  quality_score : Option ℚ

/-- The default ("not relevant") result `analyzeArticle` returns when
parsing or normalizing the LLM reply throws. -/
def defaultArticleResult : ArticleAnalysisResult :=
  { is_mcp_related := false
    summary := .str ""
    key_points := []
    quality_score := some 0 }

/-- The normalization block of `analyzeArticle` (part_001, lines 185–190):
`is_mcp_related: Boolean(parsed.is_mcp_related)`,
`summary: parsed.summary || ""`,
`key_points: Array.isArray(parsed.key_points) ? parsed.key_points : []`,
`quality_score: Math.max(0, Math.min(1, parsed.quality_score || 0))`.
Returns `none` when the property accesses throw (parsed value is
`undefined` or `null`), which the source's `catch` turns into the default. -/
def normalizeArticle : JSValue → Option ArticleAnalysisResult
  | .undefined => none
  | .null => none
  | v =>
    some
      { is_mcp_related := jsTruthy (v.getField "is_mcp_related")
        summary := jsOr (v.getField "summary") (.str "")
        key_points :=
          match v.getField "key_points" with
          | .arr l => l
          | _ => []
        quality_score :=
          jsMax (some 0)
            (jsMin (some 1) (toNumber (jsOr (v.getField "quality_score") (.num 0)))) }

/-- The object `analyzeLinkedInPost` / `analyzeRedditPost` return
(`is_relevant` / `relevance_reason` instead of `is_mcp_related`). -/
structure PostAnalysisResult where
  is_relevant : Bool
  summary : JSValue
  key_points : List JSValue
  quality_score : Option ℚ
  relevance_reason : JSValue

/-- Default result of `analyzeLinkedInPost` / `analyzeRedditPost` when
parsing throws (part_001, lines 252–258 and 316–322). -/
def defaultPostResult : PostAnalysisResult :=
  { is_relevant := false
    summary := .str ""
    key_points := []
    quality_score := some 0
    relevance_reason := .str "Failed to analyze post" }

/-- The normalization block of `analyzeLinkedInPost` (part_001, lines
240–246): same as the article one, plus
`relevance_reason: parsed.relevance_reason || ""`. -/
def normalizeLinkedInPost : JSValue → Option PostAnalysisResult
  | .undefined => none
  | .null => none
  | v =>
    some
      { is_relevant := jsTruthy (v.getField "is_relevant")
        summary := jsOr (v.getField "summary") (.str "")
        key_points :=
          match v.getField "key_points" with
          | .arr l => l
          | _ => []
        quality_score :=
          jsMax (some 0)
            (jsMin (some 1) (toNumber (jsOr (v.getField "quality_score") (.num 0))))
        relevance_reason := jsOr (v.getField "relevance_reason") (.str "") }

/-- The normalization block of `analyzeRedditPost` (part_001, lines
304–310); textually identical to the LinkedIn one. -/
def normalizeRedditPost : JSValue → Option PostAnalysisResult
  | .undefined => none
  | .null => none
  | v =>
    some
      { is_relevant := jsTruthy (v.getField "is_relevant")
        summary := jsOr (v.getField "summary") (.str "")
        key_points :=
          match v.getField "key_points" with
          | .arr l => l
          | _ => []
        quality_score :=
          jsMax (some 0)
            (jsMin (some 1) (toNumber (jsOr (v.getField "quality_score") (.num 0))))
        relevance_reason := jsOr (v.getField "relevance_reason") (.str "") }

/-- `analyzeArticle`'s reply handling (part_001, lines 181–202): parse the
LLM reply with `parseJsonResponse`, normalize; any exception (parse failure,
or property access on a `null` payload) is caught and replaced by the
default result.  `parse` abstracts `JSON.parse`, `response` is the raw LLM
reply text.  The function is total: no exception escapes to the caller. -/
def analyzeArticleOnReply (parse : List Char → Option JSValue)
    (response : List Char) : ArticleAnalysisResult :=
  ((parseJsonResponse parse response).bind normalizeArticle).getD defaultArticleResult

/-- `analyzeLinkedInPost`'s reply handling (part_001, lines 236–259). -/
def analyzeLinkedInPostOnReply (parse : List Char → Option JSValue)
    (response : List Char) : PostAnalysisResult :=
  ((parseJsonResponse parse response).bind normalizeLinkedInPost).getD defaultPostResult

/-- `analyzeRedditPost`'s reply handling (part_001, lines 300–323). -/
def analyzeRedditPostOnReply (parse : List Char → Option JSValue)
    (response : List Char) : PostAnalysisResult :=
  ((parseJsonResponse parse response).bind normalizeRedditPost).getD defaultPostResult

-- =========================================================================
-- Blog pipeline: processArticle (src/unnamed/part_000, lines 123-183)
-- =========================================================================

/-- The normalized article analysis the blog pipeline consumes
(TypeScript type `LLMArticleAnalysisResponse`). -/
structure LLMArticleAnalysisResponse where
  is_mcp_related : Bool
  summary : String
  key_points : List String
  quality_score : ℚ

/-- A blog source row (the fields of `Blog` that `processArticle` reads). -/
structure Blog where
  id : String
  name : String
  url : String
  authority : ℚ

/-- One entry of the LLM-extracted article list. -/
structure ArticleInfo where
  title : String
  url : String
  published_at : Option String

/-- The row `processArticle` passes to `upsertArticle`
(TypeScript type `ArticleInsert`). -/
structure ArticleInsert where
  blog_id : String
  title : String
  url : String
  published_at : String
  publication_week : String
  summary : String
  key_points : List String
  post_score : ℚ

/-- `processArticle` from the blog pipeline (`src/unnamed/part_000`, lines
123–183), starting after the article fetch: `content` is the text obtained
from `extractPlainText` of the fetched article page, `analyze` abstracts
`analyzeArticle`, `parseD` abstracts `parseDate` (epoch ms, `none` for an
invalid date), `nowMs` models `new Date()` and `oneWeekAgoMs` the
`oneWeekAgo` instant of `isWithinLastWeek`.  Returns the row handed to
`upsertArticle`, or `none` when the article is skipped (too short, not
MCP-related, or older than one week). -/
def processArticle
    (analyze : String → String → ℚ → LLMArticleAnalysisResponse)
    (parseD : String → Option ℤ) (env : JSDateEnv) (nowMs oneWeekAgoMs : ℤ)
    (blog : Blog) (info : ArticleInfo) (content : String) :
    Option ArticleInsert :=
  if hasMinimumContent content 100 = false then none
  else
    let analysis := analyze info.title content blog.authority
    if analysis.is_mcp_related = false then none
    else
      let publishedDate : ℤ :=
        match info.published_at with
        | some s => (parseD s).getD nowMs
        | none => nowMs
      if isWithinLastWeek oneWeekAgoMs publishedDate = false then none
      else
        some
          { blog_id := blog.id
            title := info.title
            url := info.url
            published_at := formatDate env publishedDate
            publication_week := getPublicationWeek env publishedDate
            summary := analysis.summary
            key_points := analysis.key_points
            post_score := calculatePostScore analysis.quality_score blog.authority }

-- =========================================================================
-- LinkedIn pipeline: processLinkedInPost (src/lib/types.ts, lines 1845-1925)
-- =========================================================================

/-- The normalized post analysis the LinkedIn/Reddit pipelines consume
(TypeScript types `LLMLinkedInPostAnalysisResponse` /
`LLMRedditPostAnalysisResponse`). -/
structure LLMPostAnalysisResponse where
  is_relevant : Bool
  summary : String
  key_points : List String
  quality_score : ℚ
  relevance_reason : String

/-- Author data of a raw LinkedIn post. -/
structure LinkedInAuthor where
  name : String
  linkedinUrl : String
  info : Option String
  avatarUrl : Option String

/-- Engagement counters of a LinkedIn post. -/
structure LinkedInEngagement where
  likes : ℤ
  comments : ℤ
  shares : ℤ

/-- A raw LinkedIn post as returned by the Apify dataset (the fields
`processLinkedInPost` reads; `postedAt`/`repostedAt` are the `.date`
strings). -/
structure LinkedInRawPost where
  id : String
  linkedinUrl : String
  content : String
  author : LinkedInAuthor
  engagement : LinkedInEngagement
  postedAt : String
  repostedBy : Option LinkedInAuthor
  repostedAt : Option String
  postVideoUrl : Option String
  postImageUrls : List String

/-- The row `processLinkedInPost` passes to `createLinkedInContent`
(TypeScript type `LinkedInContentInsert`). -/
structure LinkedInContentInsert where
  post_id : String
  url : String
  author_name : String
  author_headline : Option String
  author_profile_url : String
  author_profile_image : Option String
  content : String
  num_likes : ℤ
  num_comments : ℤ
  num_reposts : ℤ
  post_type : String
  media_url : Option String
  published_at : String
  post_score : ℤ
  type : String
  week_date : String

/-- The LinkedIn content table (rows inserted by `createLinkedInContent`). -/
structure LinkedInDB where
  rows : List LinkedInContentInsert

/-- `linkedInContentExistsByPostId` from `src/lib/db.ts` (lines 1202–1215):
`SELECT COUNT(*) ... WHERE post_id = ...` compared with `> 0`. -/
def linkedInContentExistsByPostId (db : LinkedInDB) (postId : String) : Bool :=
  db.rows.any (fun r => r.post_id = postId)

/-- `createLinkedInContent` from `src/lib/db.ts` (lines 1218–1260): plain
`INSERT` of the given row. -/
def createLinkedInContent (db : LinkedInDB) (input : LinkedInContentInsert) :
    LinkedInDB :=
  { rows := db.rows ++ [input] }

/-- `getPostType` from `src/lib/types.ts` (LinkedIn scraper section):
`postVideo` → `"video"`, non-empty `postImages` → `"image"`, else `"text"`. -/
def getPostType (rawPost : LinkedInRawPost) : String :=
  if rawPost.postVideoUrl.isSome then "video"
  else if rawPost.postImageUrls ≠ [] then "image"
  else "text"

/-- `getMediaUrl` from `src/lib/types.ts` (LinkedIn scraper section). -/
def getMediaUrl (rawPost : LinkedInRawPost) : Option String :=
  match rawPost.postVideoUrl with
  | some v => some v
  | none => rawPost.postImageUrls.head?

/-- Return value of `processLinkedInPost`. -/
structure LinkedInSaveResult where
  saved : Bool
  relevant : Bool
  score : ℤ

/-- `MIN_RELEVANT_SCORE` from the LinkedIn scraper (0–100 scale). -/
def MIN_RELEVANT_SCORE : ℤ := 50

/-- `processLinkedInPost` from `src/lib/types.ts` (lines 1845–1925):
skip if the post id already exists or the content is missing/shorter than
50 chars; otherwise analyze with the LLM (`analyze` oracle), compute
`postScore = is_relevant ? Math.round((quality*0.7 + authority*0.3)*100) : 0`,
resolve repost author/date, compute `week_date` via `getPublicationWeek`
(`parseD` abstracts `new Date(string).getTime()`), and always insert the
row.  `relevant` in the result is `postScore >= MIN_RELEVANT_SCORE`. -/
def processLinkedInPost
    (analyze : LinkedInRawPost → LLMPostAnalysisResponse)
    (parseD : String → ℤ) (env : JSDateEnv) (db : LinkedInDB)
    (rawPost : LinkedInRawPost) (authorAuthority : ℚ) :
    LinkedInDB × LinkedInSaveResult :=
  if linkedInContentExistsByPostId db rawPost.id then
    (db, { saved := false, relevant := false, score := 0 })
  else if rawPost.content = "" ∨ rawPost.content.length < 50 then
    (db, { saved := false, relevant := false, score := 0 })
  else
    let analysis := analyze rawPost
    let postScore : ℤ :=
      if analysis.is_relevant then
        jsRound ((analysis.quality_score * (7/10) + authorAuthority * (3/10)) * 100)
      else 0
    let authorName :=
      match rawPost.repostedBy with
      | some rb => rb.name
      | none => rawPost.author.name
    let authorUrl :=
      match rawPost.repostedBy with
      | some rb => rb.linkedinUrl
      | none => rawPost.author.linkedinUrl
    let postedAt :=
      match rawPost.repostedBy, rawPost.repostedAt with
      | some _, some ra => ra
      | _, _ => rawPost.postedAt
    let weekDate := getPublicationWeek env (parseD postedAt)
    let contentInsert : LinkedInContentInsert :=
      { post_id := rawPost.id
        url := rawPost.linkedinUrl
        author_name := authorName
        author_headline := rawPost.author.info
        author_profile_url := authorUrl
        author_profile_image := rawPost.author.avatarUrl
        content := rawPost.content
        num_likes := rawPost.engagement.likes
        num_comments := rawPost.engagement.comments
        num_reposts := rawPost.engagement.shares
        post_type := getPostType rawPost
        media_url := getMediaUrl rawPost
        published_at := postedAt
        post_score := postScore
        type := "community"
        week_date := weekDate }
    (createLinkedInContent db contentInsert,
      { saved := true, relevant := decide (MIN_RELEVANT_SCORE ≤ postScore)
        score := postScore })

-- =========================================================================
-- Reddit pipeline: processRedditPosts (src/lib/reddit-scraper.ts, 119-219)
-- =========================================================================

/-- A raw Reddit post (TypeScript type `RedditRawPost`; `selftext` is
normalized to `""` when absent by `fetchSubredditPosts`). -/
structure RedditRawPost where
  id : String
  title : String
  author : String
  subreddit : String
  selftext : String
  url : String
  permalink : String
  score : ℤ
  num_comments : ℤ
  created_utc : ℤ

/-- The row `processRedditPosts` passes to `createRedditContent`
(TypeScript type `RedditContentInsert`, including the `content_hash`
field the scraper fills in). -/
structure RedditContentInsert where
  title : String
  author : String
  subreddit : String
  selftext : Option String
  url : String
  permalink : String
  score : ℤ
  num_comments : ℤ
  created_at : ℤ
  type : String
  authority : ℚ
  post_score : ℚ
  week_date : String
  content_hash : String

/-- The Reddit content table (rows inserted by `createRedditContent`). -/
structure RedditDB where
  rows : List RedditContentInsert

/-- `redditContentExistsByPermalink` from `src/lib/db.ts` (lines 1450–1463):
`SELECT COUNT(*) ... WHERE permalink = ...` compared with `> 0`. -/
def redditContentExistsByPermalink (db : RedditDB) (permalink : String) : Bool :=
  db.rows.any (fun r => r.permalink = permalink)

/-- Modelled from the spec: `redditContentExistsByHash` is imported by
`src/lib/reddit-scraper.ts` from `./db.ts` but its definition is not under
`src/` (the `db.ts` snapshot there predates the content-hash feature).
Per the spec ("dedupe ... by a content hash (title+body) to catch
cross-posted duplicates across subreddits") it checks whether any stored
Reddit row already carries that `content_hash`. -/
def redditContentExistsByHash (db : RedditDB) (contentHash : String) : Bool :=
  db.rows.any (fun r => r.content_hash = contentHash)

/-- Modelled from the spec: `createRedditContent` (the content-hash-aware
revision whose caller supplies `content_hash` in `RedditContentInsert`)
inserts the given row; per the spec's invariant the stored row keeps the
natural keys (permalink, content hash) it was checked against. -/
def createRedditContent (db : RedditDB) (input : RedditContentInsert) :
    RedditDB :=
  { rows := db.rows ++ [input] }

/-- The string hashed for cross-post detection
(`src/lib/reddit-scraper.ts`, lines 147–148):
`content = post.selftext || post.title` and the digest input is
`post.title + " " + content`. -/
def redditHashInput (post : RedditRawPost) : String :=
  post.title ++ " " ++ (if post.selftext = "" then post.title else post.selftext)

/-- Accumulated result of `processRedditPosts` (its counters plus the
database state; the source's `errors` list stays empty in this pure model
because the modelled analysis, hashing and insertion do not throw). -/
structure RedditBatchResult where
  db : RedditDB
  postsSaved : ℕ
  postsRelevant : ℕ
  postsSkipped : ℕ

/-- The `insertData` record built by `processRedditPosts` for a post that
passed all filters (`src/lib/reddit-scraper.ts`, lines 175–194):
`post_score = analysis.quality_score` (the comment in the source notes
"post_score e 0.0 a 1.0"), `week_date = getWeekDate(post.created_utc)`,
`content_hash` the digest of `title + " " + (selftext || title)`, and
`selftext: post.selftext || null`. -/
def redditInsertData (hash : String → String)
    (analyze : RedditRawPost → LLMPostAnalysisResponse)
    (env : JSDateEnv) (ty : String) (authority : ℚ)
    (post : RedditRawPost) : RedditContentInsert :=
  { title := post.title
    author := post.author
    subreddit := post.subreddit
    selftext := if post.selftext = "" then none else some post.selftext
    url := post.url
    permalink := post.permalink
    score := post.score
    num_comments := post.num_comments
    created_at := post.created_utc
    type := ty
    authority := authority
    post_score := (analyze post).quality_score
    week_date := getWeekDate env post.created_utc
    content_hash := hash (redditHashInput post) }

/-- The body of `processRedditPosts`'s per-post loop
(`src/lib/reddit-scraper.ts`, lines 136–208): skip when the permalink
already exists; otherwise hash `title + " " + (selftext || title)`
(`hash` abstracts `generateContentHash`, a deterministic digest — modelled
from the spec, its definition is not under `src/`), skip when the hash
already exists (cross-post) or the LLM analysis (`analyze` oracle) says not
relevant; otherwise insert the row with
`post_score = analysis.quality_score` (0–1 scale),
`week_date = getWeekDate(post.created_utc)` and the computed hash. -/
def redditStep (hash : String → String)
    (analyze : RedditRawPost → LLMPostAnalysisResponse)
    (env : JSDateEnv) (ty : String) (authority : ℚ)
    (acc : RedditBatchResult) (post : RedditRawPost) : RedditBatchResult :=
  if redditContentExistsByPermalink acc.db post.permalink then
    { acc with postsSkipped := acc.postsSkipped + 1 }
  else
    let contentHash := hash (redditHashInput post)
    if redditContentExistsByHash acc.db contentHash then
      { acc with postsSkipped := acc.postsSkipped + 1 }
    else
      let analysis := analyze post
      if analysis.is_relevant = false then
        { acc with postsSkipped := acc.postsSkipped + 1 }
      else
        { db := createRedditContent acc.db
            (redditInsertData hash analyze env ty authority post)
          postsSaved := acc.postsSaved + 1
          postsRelevant := acc.postsRelevant + 1
          postsSkipped := acc.postsSkipped }

/-- `processRedditPosts` (`src/lib/reddit-scraper.ts`, lines 119–219):
fold the per-post loop body over the post list, starting from the current
database and zeroed counters. -/
def processRedditPosts (hash : String → String)
    (analyze : RedditRawPost → LLMPostAnalysisResponse)
    (env : JSDateEnv) (ty : String) (authority : ℚ)
    (db : RedditDB) (posts : List RedditRawPost) : RedditBatchResult :=
  posts.foldl (redditStep hash analyze env ty authority)
    { db := db, postsSaved := 0, postsRelevant := 0, postsSkipped := 0 }

-- =========================================================================
-- fetchWithRetry (src/lib/utils.ts, lines 171-219)
-- =========================================================================

/-- The fixed retry delay schedule `delays = [1000, 2000, 3000]` of
`fetchWithRetry` (`src/lib/utils.ts`, line 176). -/
def delays : List ℕ := [1000, 2000, 3000]

/-- Outcome of one `fetch` attempt: a response with its `ok` flag (2xx) and
an identifying tag, or a thrown transport exception with a tag. -/
inductive FetchOutcome where
  | resp (ok : Bool) (rid : ℕ) : FetchOutcome
  | exn (eid : ℕ) : FetchOutcome

/-- Whether an attempt outcome is a thrown exception. -/
def FetchOutcome.isExn : FetchOutcome → Bool
  | .exn _ => true
  | _ => false

/-- Whether an attempt outcome is a 2xx (`response.ok`) response. -/
def FetchOutcome.isOk2xx : FetchOutcome → Bool
  | .resp true _ => true
  | _ => false

/-- The exception tag of an outcome (junk `0` for responses). -/
def FetchOutcome.errId : FetchOutcome → ℕ
  | .exn e => e
  | .resp _ _ => 0

/-- Observable result of a `fetchWithRetry` run: the returned response
`(ok, rid)` or the re-thrown exception, the sleep durations performed
between attempts (`none` models `sleep(undefined)` from an out-of-bounds
`delays[attempt]` read), and the number of fetch attempts made. -/
structure FetchRun where
  result : Except ℕ (Bool × ℕ)
  sleeps : List (Option ℕ)
  attempts : ℕ

/-- The loop of `fetchWithRetry`, at loop counter `attempt` with
`k = maxRetries - attempt` iterations after this one still allowed
(`attempt < maxRetries` in the source is exactly `k ≠ 0`).  A 2xx response
returns; a non-2xx response sleeps `delays[attempt]` and retries if retries
remain, else is returned; a thrown exception sleeps and retries if retries
remain, else is re-thrown.  (The `throw` after the source's loop is
unreachable: the last iteration always returns or throws.) -/
def fwrGo (oracle : ℕ → FetchOutcome) : ℕ → ℕ → FetchRun
  | attempt, k =>
    match oracle attempt, k with
    | .resp true rid, _ => { result := .ok (true, rid), sleeps := [], attempts := 1 }
    | .resp false rid, 0 => { result := .ok (false, rid), sleeps := [], attempts := 1 }
    | .resp false _, k' + 1 =>
      let r := fwrGo oracle (attempt + 1) k'
      { result := r.result, sleeps := delays.get? attempt :: r.sleeps
        attempts := r.attempts + 1 }
    | .exn eid, 0 => { result := .error eid, sleeps := [], attempts := 1 }
    | .exn _, k' + 1 =>
      let r := fwrGo oracle (attempt + 1) k'
      { result := r.result, sleeps := delays.get? attempt :: r.sleeps
        attempts := r.attempts + 1 }

/-- `fetchWithRetry` (`src/lib/utils.ts`, lines 171–219) with the `fetch`
calls abstracted as `oracle : attempt index → outcome`:
`for (attempt = 0; attempt <= maxRetries; attempt++) { ... }`. -/
def fetchWithRetry (oracle : ℕ → FetchOutcome) (maxRetries : ℕ) : FetchRun :=
  fwrGo oracle 0 maxRetries

-- =========================================================================
-- Helper lemmas
-- =========================================================================

theorem padStart2_length (s : String) : 2 ≤ (padStart2 s).length := by
  unfold padStart2
  by_cases h : 2 ≤ s.length
  · simp [h]
  · simp only [h, if_false, String.length_append]
    have hmk : (String.mk (List.replicate (2 - s.length) '0')).length =
        2 - s.length := by
      show (List.replicate (2 - s.length) '0').length = 2 - s.length
      exact List.length_replicate _ _
    omega

theorem calculatePostScore_example : calculatePostScore (8/10) (5/10) = 71/100 := by
  have harg : ((8:ℚ)/10 * (7/10) + 5/10 * (3/10)) * 100 + 1/2 = 143/2 := by
    norm_num
  have h143 : ⌊(143 : ℚ)/2⌋ = (71 : ℤ) := by
    rw [Int.floor_eq_iff]
    norm_num
  simp only [calculatePostScore, jsRound, harg, h143]
  norm_num

-- =========================================================================
-- C1
-- =========================================================================

/-- C1: for `q, a ∈ [0,1]`, `calculatePostScore q a` is the value
`0.7*q + 0.3*a` rounded to 2 decimal places: it is an integer multiple of
`1/100`, differs from the exact weighted sum by at most half of the last
kept digit (`1/200`), stays in `[0,1]`, and on the spec's example
`calculatePostScore 0.8 0.5 = 0.71`. -/
theorem calculatePostScore_rounds_to_2dp (q a : ℚ)
    (hq0 : 0 ≤ q) (hq1 : q ≤ 1) (ha0 : 0 ≤ a) (ha1 : a ≤ 1) :
    (∃ n : ℤ, calculatePostScore q a = (n : ℚ) / 100) ∧
    |calculatePostScore q a - (q * (7/10) + a * (3/10))| ≤ 1 / 200 ∧
    0 ≤ calculatePostScore q a ∧ calculatePostScore q a ≤ 1 ∧
    calculatePostScore (8/10) (5/10) = 71/100 := by
  set S : ℚ := q * (7/10) + a * (3/10) with hS
  have hS0 : 0 ≤ S := by positivity
  have hS1 : S ≤ 1 := by rw [hS]; linarith
  set n : ℤ := ⌊S * 100 + 1/2⌋ with hn
  have hval : calculatePostScore q a = (n : ℚ) / 100 := by
    simp [calculatePostScore, jsRound, hn, hS]
  have hfl : (n : ℚ) ≤ S * 100 + 1/2 := Int.floor_le _
  have hfu : S * 100 + 1/2 < (n : ℚ) + 1 := Int.lt_floor_add_one _
  refine ⟨⟨n, hval⟩, ?_, ?_, ?_, ?_⟩
  · rw [hval, abs_le]
    constructor <;> linarith
  · rw [hval]
    have : (0 : ℤ) ≤ n := by
      rw [hn]
      exact Int.le_floor.mpr (by push_cast; linarith)
    have : (0 : ℚ) ≤ (n : ℚ) := by exact_mod_cast this
    linarith
  · rw [hval]
    have hlt : (n : ℚ) < 101 := by linarith
    have hle : n < 101 := by exact_mod_cast hlt
    have : (n : ℚ) ≤ 100 := by
      have : n ≤ 100 := by omega
      exact_mod_cast this
    linarith
  · exact calculatePostScore_example

/-- Witness for C1 at the spec's example inputs `q = 0.8`, `a = 0.5`. -/
theorem calculatePostScore_rounds_to_2dp_witness :
    calculatePostScore (8/10) (5/10) = 71/100 ∧
    |calculatePostScore (8/10) (5/10) - ((8:ℚ)/10 * (7/10) + 5/10 * (3/10))| ≤ 1/200 :=
  ⟨(calculatePostScore_rounds_to_2dp (8/10) (5/10) (by norm_num) (by norm_num)
      (by norm_num) (by norm_num)).2.2.2.2,
   (calculatePostScore_rounds_to_2dp (8/10) (5/10) (by norm_num) (by norm_num)
      (by norm_num) (by norm_num)).2.1⟩

-- =========================================================================
-- C7
-- =========================================================================

/-- C7: the Reddit pipeline's `getWeekDate` at a Unix timestamp `t` (in
seconds) produces exactly the same `YYYY-wWW` string as the blog pipeline's
`getPublicationWeek` at the date `t * 1000` ms (in the same `Date`
environment, hence for the same calendar date); both are pure functions of
their inputs (deterministic across repeated calls), and the week-number part
of the string is zero-padded to at least two digits. -/
theorem getWeekDate_eq_getPublicationWeek (env : JSDateEnv) (t : ℤ) :
    getWeekDate env t = getPublicationWeek env (t * 1000) ∧
    ∃ w : String, getWeekDate env t =
        toString (env.fullYear (t * 1000)) ++ "-w" ++ w ∧ 2 ≤ w.length := by
  refine ⟨rfl, ⟨padStart2 (toString
    (⌈((((t * 1000 : ℤ) : ℚ) - (env.jan1Time (env.fullYear (t * 1000)) : ℚ)) / 86400000 +
      (env.jan1Day (env.fullYear (t * 1000)) : ℚ) + 1) / 7⌉ : ℤ)), ?_, padStart2_length _⟩⟩
  simp [getWeekDate]

-- =========================================================================
-- Concrete fixtures for witnesses / counterexamples
-- =========================================================================

/-- A concrete `Date` environment for evaluating witnesses. -/
def trivEnv : JSDateEnv :=
  { fullYear := fun _ => 2024
    jan1Time := fun _ => 0
    jan1Day := fun _ => 1
    isoDateStr := fun _ => "2024-01-01T00:00:00.000Z" }

/-- A concrete raw Reddit post with the given permalink and subreddit. -/
def samplePost (pl sub : String) : RedditRawPost :=
  { id := "id-" ++ pl
    title := "Sample title"
    author := "author"
    subreddit := sub
    selftext := "Shared body text"
    url := "https://example.com/x"
    permalink := pl
    score := 10
    num_comments := 2
    created_utc := 0 }

/-- A concrete relevant analysis with `quality_score = 0.8`. -/
def relevantAnalysis : LLMPostAnalysisResponse :=
  { is_relevant := true
    summary := "s"
    key_points := []
    quality_score := 8/10
    relevance_reason := "r" }

/-- A concrete irrelevant analysis. -/
def irrelevantAnalysis : LLMPostAnalysisResponse :=
  { is_relevant := false
    summary := ""
    key_points := []
    quality_score := 9/10
    relevance_reason := "off-topic" }

-- =========================================================================
-- C3
-- =========================================================================

/-- C3: relevance filtering per pipeline.  (i) Blog: when the analysis has
`is_mcp_related = false`, `processArticle` returns `none` (no `Article` row
is stored).  (ii) Reddit: when the analysis has `is_relevant = false`, the
per-post loop body leaves the stored rows (and the saved counter) unchanged.
(iii) LinkedIn: a post with a new `post_id` and content of at least 50
characters is always stored — exactly one row is appended and
`saved = true` — and when its analysis has `is_relevant = false` the stored
row has `post_score = 0`. -/
theorem relevance_filtering :
    (∀ (analyze : String → String → ℚ → LLMArticleAnalysisResponse)
        (parseD : String → Option ℤ) (env : JSDateEnv) (nowMs oneWeekAgoMs : ℤ)
        (blog : Blog) (info : ArticleInfo) (content : String),
      (analyze info.title content blog.authority).is_mcp_related = false →
      processArticle analyze parseD env nowMs oneWeekAgoMs blog info content = none) ∧
    (∀ (hash : String → String) (analyze : RedditRawPost → LLMPostAnalysisResponse)
        (env : JSDateEnv) (ty : String) (auth : ℚ) (acc : RedditBatchResult)
        (post : RedditRawPost),
      (analyze post).is_relevant = false →
      (redditStep hash analyze env ty auth acc post).db = acc.db ∧
      (redditStep hash analyze env ty auth acc post).postsSaved = acc.postsSaved) ∧
    (∀ (analyze : LinkedInRawPost → LLMPostAnalysisResponse)
        (parseD : String → ℤ) (env : JSDateEnv) (db : LinkedInDB)
        (rawPost : LinkedInRawPost) (authority : ℚ),
      linkedInContentExistsByPostId db rawPost.id = false →
      ¬(rawPost.content = "" ∨ rawPost.content.length < 50) →
      ∃ row,
        (processLinkedInPost analyze parseD env db rawPost authority).1.rows =
          db.rows ++ [row] ∧
        (processLinkedInPost analyze parseD env db rawPost authority).2.saved = true ∧
        ((analyze rawPost).is_relevant = false → row.post_score = 0)) := by
  refine ⟨?_, ?_, ?_⟩
  · intro analyze parseD env nowMs oneWeekAgoMs blog info content h
    unfold processArticle
    by_cases hmin : hasMinimumContent content 100 = false
    · simp [hmin]
    · simp [hmin, h]
  · intro hash analyze env ty auth acc post h
    unfold redditStep
    by_cases hp : redditContentExistsByPermalink acc.db post.permalink
    · simp [hp]
    · by_cases hh : redditContentExistsByHash acc.db (hash (redditHashInput post))
      · simp [hp, hh]
      · simp [hp, hh, h]
  · intro analyze parseD env db rawPost authority hex hlen
    refine ⟨{ post_id := rawPost.id
              url := rawPost.linkedinUrl
              author_name :=
                match rawPost.repostedBy with
                | some rb => rb.name
                | none => rawPost.author.name
              author_headline := rawPost.author.info
              author_profile_url :=
                match rawPost.repostedBy with
                | some rb => rb.linkedinUrl
                | none => rawPost.author.linkedinUrl
              author_profile_image := rawPost.author.avatarUrl
              content := rawPost.content
              num_likes := rawPost.engagement.likes
              num_comments := rawPost.engagement.comments
              num_reposts := rawPost.engagement.shares
              post_type := getPostType rawPost
              media_url := getMediaUrl rawPost
              published_at :=
                match rawPost.repostedBy, rawPost.repostedAt with
                | some _, some ra => ra
                | _, _ => rawPost.postedAt
              post_score :=
                if (analyze rawPost).is_relevant then
                  jsRound (((analyze rawPost).quality_score * (7/10) +
                    authority * (3/10)) * 100)
                else 0
              type := "community"
              week_date := getPublicationWeek env (parseD
                (match rawPost.repostedBy, rawPost.repostedAt with
                 | some _, some ra => ra
                 | _, _ => rawPost.postedAt)) }, ?_, ?_, ?_⟩
    · simp only [processLinkedInPost, hex, Bool.false_eq_true, if_false,
        hlen, createLinkedInContent]
    · simp only [processLinkedInPost, hex, Bool.false_eq_true, if_false, hlen]
    · intro hrel
      simp [hrel]

/-- A concrete not-MCP-related article analysis. -/
def notMcpAnalysis : LLMArticleAnalysisResponse :=
  { is_mcp_related := false
    summary := ""
    key_points := []
    quality_score := 9/10 }

/-- A concrete blog source. -/
def sampleBlog : Blog :=
  { id := "b1"
    name := "Blog"
    url := "https://b"
    authority := 1/2 }

/-- A concrete extracted article entry. -/
def sampleArticleInfo : ArticleInfo :=
  { title := "T"
    url := "https://b/a"
    published_at := none }

/-- A concrete fresh LinkedIn raw post with 60 characters of content. -/
def sampleLinkedInPost : LinkedInRawPost :=
  { id := "li1"
    linkedinUrl := "https://l/p"
    content := String.mk (List.replicate 60 'y')
    author := { name := "A"
                linkedinUrl := "https://l/a"
                info := none
                avatarUrl := none }
    engagement := { likes := 1, comments := 0, shares := 0 }
    postedAt := "2024-01-01"
    repostedBy := none
    repostedAt := none
    postVideoUrl := none
    postImageUrls := [] }

/-- An empty Reddit batch accumulator. -/
def emptyRedditAcc : RedditBatchResult :=
  { db := { rows := [] }
    postsSaved := 0
    postsRelevant := 0
    postsSkipped := 0 }

/-- Witness for C3 at concrete inputs: an article analyzed as not
MCP-related is not stored; an irrelevant Reddit post leaves the table
unchanged; a fresh 60-character LinkedIn post analyzed as irrelevant is
stored with `post_score = 0`. -/
theorem relevance_filtering_witness :
    processArticle (fun _ _ _ => notMcpAnalysis) (fun _ => none) trivEnv 0 0
      sampleBlog sampleArticleInfo (String.mk (List.replicate 200 'x')) = none ∧
    (redditStep (fun s => s) (fun _ => irrelevantAnalysis) trivEnv "Community"
        (7/10) emptyRedditAcc (samplePost "p1" "r1")).db =
      ({ rows := [] } : RedditDB) ∧
    (∃ row,
      (processLinkedInPost (fun _ => irrelevantAnalysis) (fun _ => 0) trivEnv
        { rows := [] } sampleLinkedInPost (7/10)).1.rows = [] ++ [row] ∧
      (processLinkedInPost (fun _ => irrelevantAnalysis) (fun _ => 0) trivEnv
        { rows := [] } sampleLinkedInPost (7/10)).2.saved = true ∧
      (irrelevantAnalysis.is_relevant = false → row.post_score = 0)) := by
  refine ⟨?_, ?_, ?_⟩
  · exact relevance_filtering.1 _ _ _ _ _ _ _ _ rfl
  · exact (relevance_filtering.2.1 _ _ _ _ _ _ _ rfl).1
  · exact relevance_filtering.2.2 _ _ _ _ _ _ (by decide)
      (by
        intro h
        rcases h with h | h
        · revert h
          decide
        · revert h
          decide)

-- =========================================================================
-- C2
-- =========================================================================

/-- Counterexample for C2: processing a relevant Reddit post with
`quality_score = 0.8` under `authority = 0.5` stores
`post_score = 0.8` — the raw LLM quality score — whereas the claimed single
weighted formula gives `round(0.7*0.8 + 0.3*0.5, 2) = 0.71 ≠ 0.8`. -/
theorem redditScore_not_weighted_counterexample :
    (processRedditPosts (fun s => s) (fun _ => relevantAnalysis) trivEnv
        "Community" (5/10) { rows := [] } [samplePost "p1" "r1"]).db.rows.map
      (fun r => r.post_score) = [8/10] ∧
    calculatePostScore (8/10) (5/10) = 71/100 ∧
    (8 : ℚ)/10 ≠ 71/100 := by
  refine ⟨rfl, ?_, by norm_num⟩
  exact calculatePostScore_example

/-- C2 as amended: the Reddit pipeline does not reuse the 70/30 weighted
formula; for every Reddit post that passes the dedup checks and is analyzed
as relevant, the stored row carries `post_score = analysis.quality_score`
(the raw LLM quality on the 0–1 float scale), with the source's `authority`
stored in its own column rather than mixed into the score. -/
theorem redditStep_stores_raw_quality
    (hash : String → String) (analyze : RedditRawPost → LLMPostAnalysisResponse)
    (env : JSDateEnv) (ty : String) (auth : ℚ) (acc : RedditBatchResult)
    (post : RedditRawPost)
    (hp : redditContentExistsByPermalink acc.db post.permalink = false)
    (hh : redditContentExistsByHash acc.db (hash (redditHashInput post)) = false)
    (hr : (analyze post).is_relevant = true) :
    ∃ row,
      (redditStep hash analyze env ty auth acc post).db.rows =
        acc.db.rows ++ [row] ∧
      row.post_score = (analyze post).quality_score ∧
      row.authority = auth := by
  simp only [redditStep, hp, Bool.false_eq_true, if_false, hh, hr,
    createRedditContent]
  exact ⟨_, rfl, rfl, rfl⟩

/-- Witness for C2's amended statement at a concrete relevant post. -/
theorem redditStep_stores_raw_quality_witness :
    ∃ row,
      (redditStep (fun s => s) (fun _ => relevantAnalysis) trivEnv "Community"
        (5/10) emptyRedditAcc (samplePost "p1" "r1")).db.rows =
        emptyRedditAcc.db.rows ++ [row] ∧
      row.post_score = relevantAnalysis.quality_score ∧
      row.authority = 5/10 :=
  redditStep_stores_raw_quality (fun s => s) (fun _ => relevantAnalysis)
    trivEnv "Community" (5/10) emptyRedditAcc (samplePost "p1" "r1")
    (by decide) (by decide) rfl

-- =========================================================================
-- C4
-- =========================================================================

/-- "At most one stored item per natural key and per content hash": all
stored Reddit rows have pairwise-distinct permalinks and pairwise-distinct
content hashes. -/
def redditDistinctKeys (db : RedditDB) : Prop :=
  db.rows.Pairwise
    (fun r s => r.permalink ≠ s.permalink ∧ r.content_hash ≠ s.content_hash)

theorem redditStep_skip_of_exists (hash : String → String)
    (analyze : RedditRawPost → LLMPostAnalysisResponse) (env : JSDateEnv)
    (ty : String) (auth : ℚ) (acc : RedditBatchResult) (post : RedditRawPost)
    (h : redditContentExistsByPermalink acc.db post.permalink = true ∨
         redditContentExistsByHash acc.db (hash (redditHashInput post)) = true) :
    redditStep hash analyze env ty auth acc post =
      { acc with postsSkipped := acc.postsSkipped + 1 } := by
  rcases h with h | h
  · simp [redditStep, h]
  · cases hp : redditContentExistsByPermalink acc.db post.permalink
    · simp [redditStep, hp, h]
    · simp [redditStep, hp]

theorem redditStep_insert (hash : String → String)
    (analyze : RedditRawPost → LLMPostAnalysisResponse) (env : JSDateEnv)
    (ty : String) (auth : ℚ) (acc : RedditBatchResult) (post : RedditRawPost)
    (hp : redditContentExistsByPermalink acc.db post.permalink = false)
    (hh : redditContentExistsByHash acc.db (hash (redditHashInput post)) = false)
    (hr : (analyze post).is_relevant = true) :
    redditStep hash analyze env ty auth acc post =
      { db := { rows := acc.db.rows ++ [redditInsertData hash analyze env ty auth post] }
        postsSaved := acc.postsSaved + 1
        postsRelevant := acc.postsRelevant + 1
        postsSkipped := acc.postsSkipped } := by
  simp only [redditStep, hp, Bool.false_eq_true, if_false, hh, hr,
    createRedditContent]
  rfl

theorem redditStep_preserves_distinct (hash : String → String)
    (analyze : RedditRawPost → LLMPostAnalysisResponse) (env : JSDateEnv)
    (ty : String) (auth : ℚ) (acc : RedditBatchResult) (post : RedditRawPost)
    (h : redditDistinctKeys acc.db) :
    redditDistinctKeys (redditStep hash analyze env ty auth acc post).db := by
  cases hp : redditContentExistsByPermalink acc.db post.permalink with
  | true => simpa [redditStep, hp] using h
  | false =>
    cases hh : redditContentExistsByHash acc.db (hash (redditHashInput post)) with
    | true => simpa [redditStep, hp, hh] using h
    | false =>
      cases hr : (analyze post).is_relevant with
      | false => simpa [redditStep, hp, hh, hr] using h
      | true =>
        rw [redditStep_insert hash analyze env ty auth acc post hp hh hr]
        unfold redditDistinctKeys at h ⊢
        rw [List.pairwise_append]
        refine ⟨h, List.pairwise_singleton _ _, ?_⟩
        intro a ha b hb
        rw [List.mem_singleton] at hb
        subst hb
        have hp' := List.any_eq_false.mp hp a ha
        have hh' := List.any_eq_false.mp hh a ha
        constructor
        · simpa [redditInsertData] using hp'
        · simpa [redditInsertData] using hh'

theorem processReddit_foldl_distinct (hash : String → String)
    (analyze : RedditRawPost → LLMPostAnalysisResponse) (env : JSDateEnv)
    (ty : String) (auth : ℚ) :
    ∀ (posts : List RedditRawPost) (acc : RedditBatchResult),
      redditDistinctKeys acc.db →
      redditDistinctKeys
        (posts.foldl (redditStep hash analyze env ty auth) acc).db := by
  intro posts
  induction posts with
  | nil => intro acc h; exact h
  | cons p ps ih =>
    intro acc h
    exact ih _ (redditStep_preserves_distinct hash analyze env ty auth acc p h)

/-- C4: Reddit dedup.  (a) A post whose permalink or whose content hash is
already stored is counted in `postsSkipped` and leaves the table unchanged.
(b) Two posts with identical title and body (regardless of permalink and
subreddit) processed in one batch over a table containing neither result in
exactly one new stored row (the first post's), with one post counted saved
and one skipped.  (c) Processing preserves "at most one stored item per
permalink and per content hash". -/
theorem reddit_dedup (hash : String → String)
    (analyze : RedditRawPost → LLMPostAnalysisResponse) (env : JSDateEnv)
    (ty : String) (auth : ℚ) :
    (∀ (acc : RedditBatchResult) (post : RedditRawPost),
      (redditContentExistsByPermalink acc.db post.permalink = true ∨
       redditContentExistsByHash acc.db (hash (redditHashInput post)) = true) →
      (redditStep hash analyze env ty auth acc post).db = acc.db ∧
      (redditStep hash analyze env ty auth acc post).postsSkipped =
        acc.postsSkipped + 1) ∧
    (∀ (db : RedditDB) (p1 p2 : RedditRawPost),
      redditContentExistsByPermalink db p1.permalink = false →
      redditContentExistsByHash db (hash (redditHashInput p1)) = false →
      (analyze p1).is_relevant = true →
      p1.title = p2.title → p1.selftext = p2.selftext →
      ∃ row,
        (processRedditPosts hash analyze env ty auth db [p1, p2]).db.rows =
          db.rows ++ [row] ∧
        row.permalink = p1.permalink ∧ row.title = p1.title ∧
        (processRedditPosts hash analyze env ty auth db [p1, p2]).postsSaved = 1 ∧
        (processRedditPosts hash analyze env ty auth db [p1, p2]).postsSkipped = 1) ∧
    (∀ (db : RedditDB) (posts : List RedditRawPost),
      redditDistinctKeys db →
      redditDistinctKeys (processRedditPosts hash analyze env ty auth db posts).db) := by
  refine ⟨?_, ?_, ?_⟩
  · intro acc post h
    rw [redditStep_skip_of_exists hash analyze env ty auth acc post h]
    exact ⟨rfl, rfl⟩
  · intro db p1 p2 hp hh hr ht hs
    have hkey : redditHashInput p2 = redditHashInput p1 := by
      simp [redditHashInput, ht, hs]
    have hrun : processRedditPosts hash analyze env ty auth db [p1, p2] =
        redditStep hash analyze env ty auth
          (redditStep hash analyze env ty auth
            { db := db, postsSaved := 0, postsRelevant := 0, postsSkipped := 0 }
            p1) p2 := rfl
    rw [hrun,
      redditStep_insert hash analyze env ty auth _ p1 hp hh hr]
    set acc1 : RedditBatchResult :=
      { db := { rows := db.rows ++ [redditInsertData hash analyze env ty auth p1] }
        postsSaved := 0 + 1
        postsRelevant := 0 + 1
        postsSkipped := 0 } with hacc1
    cases hp2 : redditContentExistsByPermalink acc1.db p2.permalink with
    | true =>
      rw [redditStep_skip_of_exists hash analyze env ty auth acc1 p2 (Or.inl hp2)]
      exact ⟨redditInsertData hash analyze env ty auth p1, rfl, rfl, rfl, rfl, rfl⟩
    | false =>
      have hh2 : redditContentExistsByHash acc1.db
          (hash (redditHashInput p2)) = true := by
        rw [hkey]
        unfold redditContentExistsByHash
        rw [hacc1]
        simp [List.any_append, redditInsertData]
      rw [redditStep_skip_of_exists hash analyze env ty auth acc1 p2 (Or.inr hh2)]
      exact ⟨redditInsertData hash analyze env ty auth p1, rfl, rfl, rfl, rfl, rfl⟩
  · intro db posts h
    exact processReddit_foldl_distinct hash analyze env ty auth posts
      { db := db, postsSaved := 0, postsRelevant := 0, postsSkipped := 0 } h

/-- Witness for C4: two concrete posts with the same title and body but
different permalinks (`p1`, `p2`) and subreddits (`r1`, `r2`), processed
over an empty table: one row stored, one post skipped. -/
theorem reddit_dedup_witness :
    ∃ row,
      (processRedditPosts (fun s => s) (fun _ => relevantAnalysis) trivEnv
        "Community" (7/10) { rows := [] }
        [samplePost "p1" "r1", samplePost "p2" "r2"]).db.rows =
        ({ rows := [] } : RedditDB).rows ++ [row] ∧
      row.permalink = (samplePost "p1" "r1").permalink ∧
      row.title = (samplePost "p1" "r1").title ∧
      (processRedditPosts (fun s => s) (fun _ => relevantAnalysis) trivEnv
        "Community" (7/10) { rows := [] }
        [samplePost "p1" "r1", samplePost "p2" "r2"]).postsSaved = 1 ∧
      (processRedditPosts (fun s => s) (fun _ => relevantAnalysis) trivEnv
        "Community" (7/10) { rows := [] }
        [samplePost "p1" "r1", samplePost "p2" "r2"]).postsSkipped = 1 :=
  (reddit_dedup (fun s => s) (fun _ => relevantAnalysis) trivEnv "Community"
    (7/10)).2.1 { rows := [] } (samplePost "p1" "r1") (samplePost "p2" "r2")
    (by decide) (by decide) rfl rfl rfl

-- =========================================================================
-- C5 / C10 support lemmas
-- =========================================================================

theorem fwrGo_eq_ok (oracle : ℕ → FetchOutcome) (a : ℕ) (rid : ℕ) (k : ℕ)
    (ho : oracle a = .resp true rid) :
    fwrGo oracle a k = { result := .ok (true, rid), sleeps := [], attempts := 1 } := by
  unfold fwrGo
  rw [ho]

theorem fwrGo_eq_resp_last (oracle : ℕ → FetchOutcome) (a : ℕ) (rid : ℕ)
    (ho : oracle a = .resp false rid) :
    fwrGo oracle a 0 = { result := .ok (false, rid), sleeps := [], attempts := 1 } := by
  unfold fwrGo
  rw [ho]

theorem fwrGo_eq_resp_retry (oracle : ℕ → FetchOutcome) (a : ℕ) (rid : ℕ) (k : ℕ)
    (ho : oracle a = .resp false rid) :
    fwrGo oracle a (k + 1) =
      { result := (fwrGo oracle (a + 1) k).result
        sleeps := delays.get? a :: (fwrGo oracle (a + 1) k).sleeps
        attempts := (fwrGo oracle (a + 1) k).attempts + 1 } := by
  conv_lhs => unfold fwrGo
  rw [ho]

theorem fwrGo_eq_exn_last (oracle : ℕ → FetchOutcome) (a : ℕ) (e : ℕ)
    (ho : oracle a = .exn e) :
    fwrGo oracle a 0 = { result := .error e, sleeps := [], attempts := 1 } := by
  unfold fwrGo
  rw [ho]

theorem fwrGo_eq_exn_retry (oracle : ℕ → FetchOutcome) (a : ℕ) (e : ℕ) (k : ℕ)
    (ho : oracle a = .exn e) :
    fwrGo oracle a (k + 1) =
      { result := (fwrGo oracle (a + 1) k).result
        sleeps := delays.get? a :: (fwrGo oracle (a + 1) k).sleeps
        attempts := (fwrGo oracle (a + 1) k).attempts + 1 } := by
  conv_lhs => unfold fwrGo
  rw [ho]

theorem fwrGo_attempts_pos (oracle : ℕ → FetchOutcome) (a k : ℕ) :
    1 ≤ (fwrGo oracle a k).attempts := by
  cases ho : oracle a with
  | resp ok rid =>
    cases ok
    · cases k with
      | zero => rw [fwrGo_eq_resp_last oracle a rid ho]
      | succ k => rw [fwrGo_eq_resp_retry oracle a rid k ho]; simp
    · rw [fwrGo_eq_ok oracle a rid k ho]
  | exn e =>
    cases k with
    | zero => rw [fwrGo_eq_exn_last oracle a e ho]
    | succ k => rw [fwrGo_eq_exn_retry oracle a e k ho]; simp

theorem fwrGo_attempts_le (oracle : ℕ → FetchOutcome) :
    ∀ k a, (fwrGo oracle a k).attempts ≤ k + 1 := by
  intro k
  induction k with
  | zero =>
    intro a
    cases ho : oracle a with
    | resp ok rid =>
      cases ok
      · rw [fwrGo_eq_resp_last oracle a rid ho]
      · rw [fwrGo_eq_ok oracle a rid 0 ho]
    | exn e => rw [fwrGo_eq_exn_last oracle a e ho]
  | succ k ih =>
    intro a
    cases ho : oracle a with
    | resp ok rid =>
      cases ok
      · rw [fwrGo_eq_resp_retry oracle a rid k ho]
        have := ih (a + 1)
        simp only
        omega
      · rw [fwrGo_eq_ok oracle a rid (k + 1) ho]
        simp only
        omega
    | exn e =>
      rw [fwrGo_eq_exn_retry oracle a e k ho]
      have := ih (a + 1)
      simp only
      omega

theorem fwrGo_sleeps_length (oracle : ℕ → FetchOutcome) :
    ∀ k a, (fwrGo oracle a k).sleeps.length = (fwrGo oracle a k).attempts - 1 := by
  intro k
  induction k with
  | zero =>
    intro a
    cases ho : oracle a with
    | resp ok rid =>
      cases ok
      · rw [fwrGo_eq_resp_last oracle a rid ho]; rfl
      · rw [fwrGo_eq_ok oracle a rid 0 ho]; rfl
    | exn e => rw [fwrGo_eq_exn_last oracle a e ho]; rfl
  | succ k ih =>
    intro a
    cases ho : oracle a with
    | resp ok rid =>
      cases ok
      · rw [fwrGo_eq_resp_retry oracle a rid k ho]
        have h := ih (a + 1)
        have hp := fwrGo_attempts_pos oracle (a + 1) k
        simp only [List.length_cons]
        omega
      · rw [fwrGo_eq_ok oracle a rid (k + 1) ho]; rfl
    | exn e =>
      rw [fwrGo_eq_exn_retry oracle a e k ho]
      have h := ih (a + 1)
      have hp := fwrGo_attempts_pos oracle (a + 1) k
      simp only [List.length_cons]
      omega

theorem fwrGo_sleeps_get (oracle : ℕ → FetchOutcome) :
    ∀ k a i x, (fwrGo oracle a k).sleeps.get? i = some x →
      x = delays.get? (a + i) := by
  intro k
  induction k with
  | zero =>
    intro a i x h
    cases ho : oracle a with
    | resp ok rid =>
      cases ok
      · rw [fwrGo_eq_resp_last oracle a rid ho] at h
        simp at h
      · rw [fwrGo_eq_ok oracle a rid 0 ho] at h
        simp at h
    | exn e =>
      rw [fwrGo_eq_exn_last oracle a e ho] at h
      simp at h
  | succ k ih =>
    intro a i x h
    cases ho : oracle a with
    | resp ok rid =>
      cases ok
      · rw [fwrGo_eq_resp_retry oracle a rid k ho] at h
        cases i with
        | zero =>
          rw [List.get?_cons_zero] at h
          have := Option.some.inj h
          rw [← this]
          rfl
        | succ i =>
          rw [List.get?_cons_succ] at h
          rw [ih (a + 1) i x h]
          congr 1
          omega
      · rw [fwrGo_eq_ok oracle a rid (k + 1) ho] at h
        simp at h
    | exn e =>
      rw [fwrGo_eq_exn_retry oracle a e k ho] at h
      cases i with
      | zero =>
        rw [List.get?_cons_zero] at h
        have := Option.some.inj h
        rw [← this]
        rfl
      | succ i =>
        rw [List.get?_cons_succ] at h
        rw [ih (a + 1) i x h]
        congr 1
        omega

theorem fwrGo_all_exn (oracle : ℕ → FetchOutcome) :
    ∀ k a, (∀ i, a ≤ i → i ≤ a + k → (oracle i).isExn = true) →
      (fwrGo oracle a k).result = .error ((oracle (a + k)).errId) := by
  intro k
  induction k with
  | zero =>
    intro a h
    have he := h a (Nat.le_refl a) (by omega)
    cases ho : oracle a with
    | resp ok rid => rw [ho] at he; simp [FetchOutcome.isExn] at he
    | exn e =>
      rw [fwrGo_eq_exn_last oracle a e ho]
      rw [show a + 0 = a from rfl, ho]
      rfl
  | succ k ih =>
    intro a h
    have he := h a (Nat.le_refl a) (by omega)
    cases ho : oracle a with
    | resp ok rid => rw [ho] at he; simp [FetchOutcome.isExn] at he
    | exn e =>
      rw [fwrGo_eq_exn_retry oracle a e k ho]
      have := ih (a + 1) (fun i h1 h2 => h i (by omega) (by omega))
      rw [show a + (k + 1) = a + 1 + k by omega]
      exact this

theorem fwrGo_last_resp (oracle : ℕ → FetchOutcome) :
    ∀ k a rid, (∀ i, a ≤ i → i < a + k → (oracle i).isOk2xx = false) →
      oracle (a + k) = .resp false rid →
      (fwrGo oracle a k).result = .ok (false, rid) := by
  intro k
  induction k with
  | zero =>
    intro a rid _ hl
    rw [show a + 0 = a from rfl] at hl
    rw [fwrGo_eq_resp_last oracle a rid hl]
  | succ k ih =>
    intro a rid h hl
    cases ho : oracle a with
    | resp ok rid' =>
      cases ok
      · rw [fwrGo_eq_resp_retry oracle a rid' k ho]
        exact ih (a + 1) rid (fun i h1 h2 => h i (by omega) (by omega))
          (by rw [show a + 1 + k = a + (k + 1) by omega]; exact hl)
      · have := h a (Nat.le_refl a) (by omega)
        rw [ho] at this
        simp [FetchOutcome.isOk2xx] at this
    | exn e =>
      rw [fwrGo_eq_exn_retry oracle a e k ho]
      exact ih (a + 1) rid (fun i h1 h2 => h i (by omega) (by omega))
        (by rw [show a + 1 + k = a + (k + 1) by omega]; exact hl)

-- =========================================================================
-- C5
-- =========================================================================

/-- C5: `fetchWithRetry` makes at most `maxRetries + 1` fetch attempts; the
sleeps between attempts follow the fixed `delays = [1000, 2000, 3000]`
schedule (the `i`-th sleep is the `delays[i]` read; one sleep between
consecutive attempts); if every attempt up to `maxRetries` throws a
transport exception, the result is the re-thrown last exception; and if no
earlier attempt returned a 2xx response while the final attempt returns a
non-2xx response, that response is returned to the caller. -/
theorem fetchWithRetry_contract (oracle : ℕ → FetchOutcome) (maxRetries : ℕ) :
    delays = [1000, 2000, 3000] ∧
    (fetchWithRetry oracle maxRetries).attempts ≤ maxRetries + 1 ∧
    (fetchWithRetry oracle maxRetries).sleeps.length =
      (fetchWithRetry oracle maxRetries).attempts - 1 ∧
    (∀ i x, (fetchWithRetry oracle maxRetries).sleeps.get? i = some x →
      x = delays.get? i) ∧
    ((∀ i, i ≤ maxRetries → (oracle i).isExn = true) →
      (fetchWithRetry oracle maxRetries).result =
        .error ((oracle maxRetries).errId)) ∧
    (∀ rid, (∀ i, i < maxRetries → (oracle i).isOk2xx = false) →
      oracle maxRetries = .resp false rid →
      (fetchWithRetry oracle maxRetries).result = .ok (false, rid)) := by
  refine ⟨rfl, fwrGo_attempts_le oracle maxRetries 0,
    fwrGo_sleeps_length oracle maxRetries 0, ?_, ?_, ?_⟩
  · intro i x h
    have := fwrGo_sleeps_get oracle maxRetries 0 i x h
    simpa using this
  · intro h
    have := fwrGo_all_exn oracle maxRetries 0 (fun i h1 h2 => h i (by omega))
    simpa using this
  · intro rid h hl
    exact fwrGo_last_resp oracle maxRetries 0 rid
      (fun i h1 h2 => h i (by omega)) (by simpa using hl)

/-- Witness for C5: with `maxRetries = 3` and every attempt throwing, the
run makes 4 attempts, sleeps 1000, 2000 and 3000 ms between them, and
re-throws the last exception (tag 3). -/
theorem fetchWithRetry_contract_witness :
    (fetchWithRetry (fun i => FetchOutcome.exn i) 3).result = .error 3 ∧
    (fetchWithRetry (fun i => FetchOutcome.exn i) 3).attempts = 4 ∧
    (fetchWithRetry (fun i => FetchOutcome.exn i) 3).sleeps =
      [some 1000, some 2000, some 3000] := by
  refine ⟨?_, rfl, rfl⟩
  have h := (fetchWithRetry_contract (fun i => FetchOutcome.exn i) 3).2.2.2.2.1
    (fun i _ => rfl)
  simpa using h

-- =========================================================================
-- C10
-- =========================================================================

/-- C10: the fixed delay schedule has exactly three entries, every read
`delays[attempt]` with `attempt ≥ 3` is out of bounds (`undefined`,
modelled as `none`), and consequently in any `fetchWithRetry` run every
recorded sleep with index 3 or higher is a sleep with no defined delay —
the documented 1s/2s/3s pacing only covers the first three retries. -/
theorem delays_out_of_bounds :
    delays.length = 3 ∧
    (∀ i, 3 ≤ i → delays.get? i = none) ∧
    (∀ (oracle : ℕ → FetchOutcome) (maxRetries i : ℕ) (x : Option ℕ),
      3 ≤ i →
      (fetchWithRetry oracle maxRetries).sleeps.get? i = some x →
      x = none) := by
  refine ⟨rfl, ?_, ?_⟩
  · intro i hi
    match i, hi with
    | i + 3, _ => rfl
  · intro oracle maxRetries i x hi h
    have hx := fwrGo_sleeps_get oracle maxRetries 0 i x h
    rw [hx]
    simp only [Nat.zero_add]
    match i, hi with
    | i + 3, _ => rfl

/-- Witness for C10: a run with `maxRetries = 5` where every attempt throws
performs five sleeps, the last two of which read `delays[3]` and
`delays[4]` out of bounds (`none`). -/
theorem delays_out_of_bounds_witness :
    delays.get? 3 = none ∧
    (fetchWithRetry (fun i => FetchOutcome.exn i) 5).sleeps =
      [some 1000, some 2000, some 3000, none, none] :=
  ⟨delays_out_of_bounds.2.1 3 (Nat.le_refl 3), rfl⟩

-- =========================================================================
-- C6
-- =========================================================================

/-- Whether a `JSValue` is an array (`Array.isArray`). -/
def JSValue.isArr : JSValue → Bool
  | .arr _ => true
  | _ => false

/-- A parsed payload whose `quality_score` is a (truthy, non-numeric) JS
object: `{"quality_score": {}}`. -/
def nanPayload : JSValue := .obj [("quality_score", .obj [])]

theorem jsClamp_bounds (t : Option ℚ) (q : ℚ)
    (h : jsMax (some 0) (jsMin (some 1) t) = some q) : 0 ≤ q ∧ q ≤ 1 := by
  cases t with
  | none => simp [jsMin, jsMax] at h
  | some x =>
    simp only [jsMin, jsMax, Option.some.injEq] at h
    subst h
    exact ⟨le_max_left 0 _, max_le (by norm_num) (min_le_left 1 x)⟩

theorem keyPoints_of_not_arr (v : JSValue)
    (h : (v.getField "key_points").isArr = false) :
    ∀ r, normalizeArticle v = some r → r.key_points = [] := by
  intro r hr
  cases v with
  | undefined => simp [normalizeArticle] at hr
  | null => simp [normalizeArticle] at hr
  | bool b =>
    simp only [normalizeArticle, Option.some.injEq] at hr
    subst hr
    cases hgf : (JSValue.bool b).getField "key_points" <;>
      simp [hgf] <;> rw [hgf] at h <;> simp [JSValue.isArr] at h
  | num q =>
    simp only [normalizeArticle, Option.some.injEq] at hr
    subst hr
    cases hgf : (JSValue.num q).getField "key_points" <;>
      simp [hgf] <;> rw [hgf] at h <;> simp [JSValue.isArr] at h
  | str s =>
    simp only [normalizeArticle, Option.some.injEq] at hr
    subst hr
    cases hgf : (JSValue.str s).getField "key_points" <;>
      simp [hgf] <;> rw [hgf] at h <;> simp [JSValue.isArr] at h
  | arr l =>
    simp only [normalizeArticle, Option.some.injEq] at hr
    subst hr
    cases hgf : (JSValue.arr l).getField "key_points" <;>
      simp [hgf] <;> rw [hgf] at h <;> simp [JSValue.isArr] at h
  | obj fs =>
    simp only [normalizeArticle, Option.some.injEq] at hr
    subst hr
    cases hgf : (JSValue.obj fs).getField "key_points" <;>
      simp [hgf] <;> rw [hgf] at h <;> simp [JSValue.isArr] at h

/-- Counterexample for C6: the parsed payload `{"quality_score": {}}` —
a structurally valid parse whose `quality_score` is a truthy non-numeric
value — flows through `parsed.quality_score || 0` unchanged (objects are
truthy), and `Math.max(0, Math.min(1, {}))` is `NaN` (`none` in this
model): the normalized `quality_score` is not a number in `[0,1]` at all. -/
theorem analyzeArticle_nan_counterexample :
    (analyzeArticleOnReply (fun _ => some nanPayload) []).quality_score = none ∧
    ¬ ∃ q : ℚ, (analyzeArticleOnReply (fun _ => some nanPayload) []).quality_score
        = some q ∧ 0 ≤ q ∧ q ≤ 1 := by
  refine ⟨rfl, ?_⟩
  rintro ⟨q, hq, -, -⟩
  rw [show (analyzeArticleOnReply (fun _ => some nanPayload) []).quality_score
      = none from rfl] at hq
  exact Option.noConfusion hq

/-- C6 as amended: whenever the normalized `quality_score` is a number
(not `NaN`), it has been clamped into `[0,1]`; a numeric raw value `1.4`
becomes `1.0` and a negative raw value becomes `0`; `key_points` is
replaced by `[]` whenever the payload's `key_points` is not an array; and
the relevance flag is the `Boolean(...)` coercion of the payload field.
(The unamended universal claim fails only for payloads whose
`quality_score` is a truthy non-numeric value, which survives JS numeric
coercion as `NaN` — see the counterexample.) -/
theorem analyzeArticle_normalization (parse : List Char → Option JSValue)
    (response : List Char) :
    (∀ q, (analyzeArticleOnReply parse response).quality_score = some q →
      0 ≤ q ∧ q ≤ 1) ∧
    (∀ v, parseJsonResponse parse response = some v →
      (v.getField "key_points").isArr = false →
      (analyzeArticleOnReply parse response).key_points = []) ∧
    (∀ fields, parseJsonResponse parse response = some (.obj fields) →
      (analyzeArticleOnReply parse response).is_mcp_related =
        jsTruthy ((JSValue.obj fields).getField "is_mcp_related")) ∧
    (analyzeArticleOnReply
      (fun _ => some (.obj [("quality_score", .num (14/10))])) []).quality_score
      = some 1 ∧
    (analyzeArticleOnReply
      (fun _ => some (.obj [("quality_score", .num (-(1/2)))])) []).quality_score
      = some 0 := by
  refine ⟨?_, ?_, ?_, ?_, ?_⟩
  · intro q hq
    unfold analyzeArticleOnReply at hq
    cases hpr : parseJsonResponse parse response with
    | none =>
      rw [hpr] at hq
      simp only [Option.none_bind, Option.getD_none, defaultArticleResult] at hq
      rw [Option.some.inj hq.symm]
      norm_num
    | some v =>
      rw [hpr] at hq
      cases v with
      | undefined =>
        simp only [Option.some_bind, normalizeArticle, Option.getD_none,
          defaultArticleResult] at hq
        rw [Option.some.inj hq.symm]
        norm_num
      | null =>
        simp only [Option.some_bind, normalizeArticle, Option.getD_none,
          defaultArticleResult] at hq
        rw [Option.some.inj hq.symm]
        norm_num
      | bool b =>
        simp only [Option.some_bind, normalizeArticle, Option.getD_some] at hq
        exact jsClamp_bounds _ q hq
      | num x =>
        simp only [Option.some_bind, normalizeArticle, Option.getD_some] at hq
        exact jsClamp_bounds _ q hq
      | str s =>
        simp only [Option.some_bind, normalizeArticle, Option.getD_some] at hq
        exact jsClamp_bounds _ q hq
      | arr l =>
        simp only [Option.some_bind, normalizeArticle, Option.getD_some] at hq
        exact jsClamp_bounds _ q hq
      | obj fs =>
        simp only [Option.some_bind, normalizeArticle, Option.getD_some] at hq
        exact jsClamp_bounds _ q hq
  · intro v hpr hna
    unfold analyzeArticleOnReply
    rw [hpr]
    cases hnv : normalizeArticle v with
    | none => simp only [Option.some_bind, hnv, Option.getD_none]; rfl
    | some r =>
      simp only [Option.some_bind, hnv, Option.getD_some]
      exact keyPoints_of_not_arr v hna r hnv
  · intro fields hpr
    unfold analyzeArticleOnReply
    rw [hpr]
    rfl
  · have h1410 : ((14 : ℚ)/10 ≠ 0) := by norm_num
    show jsMax (some 0) (jsMin (some 1)
      (toNumber (jsOr (JSValue.num (14/10)) (.num 0)))) = some 1
    simp [jsOr, jsTruthy, h1410, toNumber, jsMin, jsMax]
    norm_num [min_def, max_def]
  · show jsMax (some 0) (jsMin (some 1)
      (toNumber (jsOr (JSValue.num (-(1/2))) (.num 0)))) = some 0
    have hneg : ((-(1/2) : ℚ) ≠ 0) := by norm_num
    simp [jsOr, jsTruthy, hneg, toNumber, jsMin, jsMax]

/-- Witness for C6's amended statement: applying the clamp bound at the
concrete `1.4` payload, whose normalized quality is the number `1`. -/
theorem analyzeArticle_normalization_witness :
    (0 : ℚ) ≤ 1 ∧ (1 : ℚ) ≤ 1 :=
  (analyzeArticle_normalization
    (fun _ => some (.obj [("quality_score", .num (14/10))])) []).1 1
    (analyzeArticle_normalization
      (fun _ => some (.obj [("quality_score", .num (14/10))])) []).2.2.2.1

-- =========================================================================
-- C8
-- =========================================================================

theorem normalizeArticle_nonobj (v : JSValue) (hno : v.isObj = false) :
    ∀ r, normalizeArticle v = some r → r = defaultArticleResult := by
  intro r hr
  cases v with
  | undefined => simp [normalizeArticle] at hr
  | null => simp [normalizeArticle] at hr
  | obj fs => simp [JSValue.isObj] at hno
  | bool b =>
    simp only [normalizeArticle, Option.some.injEq] at hr
    subst hr
    simp [defaultArticleResult, JSValue.getField, jsOr, jsTruthy, toNumber,
      jsMin, jsMax]
  | num x =>
    simp only [normalizeArticle, Option.some.injEq] at hr
    subst hr
    simp [defaultArticleResult, JSValue.getField, jsOr, jsTruthy, toNumber,
      jsMin, jsMax]
  | str s =>
    simp only [normalizeArticle, Option.some.injEq] at hr
    subst hr
    simp [defaultArticleResult, JSValue.getField, jsOr, jsTruthy, toNumber,
      jsMin, jsMax]
  | arr l =>
    simp only [normalizeArticle, Option.some.injEq] at hr
    subst hr
    simp [defaultArticleResult, JSValue.getField, jsOr, jsTruthy, toNumber,
      jsMin, jsMax]

theorem normalizeLinkedInPost_nonobj (v : JSValue) (hno : v.isObj = false) :
    ∀ r, normalizeLinkedInPost v = some r →
      r.is_relevant = false ∧ r.summary = .str "" ∧ r.key_points = [] ∧
      r.quality_score = some 0 := by
  intro r hr
  cases v with
  | undefined => simp [normalizeLinkedInPost] at hr
  | null => simp [normalizeLinkedInPost] at hr
  | obj fs => simp [JSValue.isObj] at hno
  | bool b =>
    simp only [normalizeLinkedInPost, Option.some.injEq] at hr
    subst hr
    simp [JSValue.getField, jsOr, jsTruthy, toNumber, jsMin, jsMax]
  | num x =>
    simp only [normalizeLinkedInPost, Option.some.injEq] at hr
    subst hr
    simp [JSValue.getField, jsOr, jsTruthy, toNumber, jsMin, jsMax]
  | str s =>
    simp only [normalizeLinkedInPost, Option.some.injEq] at hr
    subst hr
    simp [JSValue.getField, jsOr, jsTruthy, toNumber, jsMin, jsMax]
  | arr l =>
    simp only [normalizeLinkedInPost, Option.some.injEq] at hr
    subst hr
    simp [JSValue.getField, jsOr, jsTruthy, toNumber, jsMin, jsMax]

theorem normalizeRedditPost_nonobj (v : JSValue) (hno : v.isObj = false) :
    ∀ r, normalizeRedditPost v = some r →
      r.is_relevant = false ∧ r.summary = .str "" ∧ r.key_points = [] ∧
      r.quality_score = some 0 := by
  intro r hr
  cases v with
  | undefined => simp [normalizeRedditPost] at hr
  | null => simp [normalizeRedditPost] at hr
  | obj fs => simp [JSValue.isObj] at hno
  | bool b =>
    simp only [normalizeRedditPost, Option.some.injEq] at hr
    subst hr
    simp [JSValue.getField, jsOr, jsTruthy, toNumber, jsMin, jsMax]
  | num x =>
    simp only [normalizeRedditPost, Option.some.injEq] at hr
    subst hr
    simp [JSValue.getField, jsOr, jsTruthy, toNumber, jsMin, jsMax]
  | str s =>
    simp only [normalizeRedditPost, Option.some.injEq] at hr
    subst hr
    simp [JSValue.getField, jsOr, jsTruthy, toNumber, jsMin, jsMax]
  | arr l =>
    simp only [normalizeRedditPost, Option.some.injEq] at hr
    subst hr
    simp [JSValue.getField, jsOr, jsTruthy, toNumber, jsMin, jsMax]

/-- C8: for every LLM reply whose JSON parse fails (`JSON.parse` throws;
`parseJsonResponse` yields `none` — the normalization of a `null` payload,
whose property access throws, is also absorbed the same way) or whose
parsed payload is structurally invalid (not an object), all three
classification entry points return the zero-valued negative result —
relevance flag `false`, empty summary, empty `key_points`,
`quality_score = 0` — and, the model being a total function, no exception
reaches the caller. -/
theorem classification_absorbs_failures (parse : List Char → Option JSValue)
    (response : List Char)
    (h : parseJsonResponse parse response = none ∨
         ∃ v, parseJsonResponse parse response = some v ∧ v.isObj = false) :
    analyzeArticleOnReply parse response = defaultArticleResult ∧
    (analyzeLinkedInPostOnReply parse response).is_relevant = false ∧
    (analyzeLinkedInPostOnReply parse response).summary = .str "" ∧
    (analyzeLinkedInPostOnReply parse response).key_points = [] ∧
    (analyzeLinkedInPostOnReply parse response).quality_score = some 0 ∧
    (analyzeRedditPostOnReply parse response).is_relevant = false ∧
    (analyzeRedditPostOnReply parse response).summary = .str "" ∧
    (analyzeRedditPostOnReply parse response).key_points = [] ∧
    (analyzeRedditPostOnReply parse response).quality_score = some 0 := by
  unfold analyzeArticleOnReply analyzeLinkedInPostOnReply analyzeRedditPostOnReply
  rcases h with h | ⟨v, hv, hno⟩
  · rw [h]
    exact ⟨rfl, rfl, rfl, rfl, rfl, rfl, rfl, rfl, rfl⟩
  · rw [hv]
    refine ⟨?_, ?_⟩
    · cases hnv : normalizeArticle v with
      | none => simp [hnv]
      | some r =>
        simp only [Option.some_bind, hnv, Option.getD_some]
        exact normalizeArticle_nonobj v hno r hnv
    · have hli : (((some v).bind normalizeLinkedInPost).getD
          defaultPostResult).is_relevant = false ∧
        (((some v).bind normalizeLinkedInPost).getD
          defaultPostResult).summary = .str "" ∧
        (((some v).bind normalizeLinkedInPost).getD
          defaultPostResult).key_points = [] ∧
        (((some v).bind normalizeLinkedInPost).getD
          defaultPostResult).quality_score = some 0 := by
        cases hnv : normalizeLinkedInPost v with
        | none =>
          simp only [Option.some_bind, hnv, Option.getD_none]
          exact ⟨rfl, rfl, rfl, rfl⟩
        | some r =>
          simp only [Option.some_bind, hnv, Option.getD_some]
          exact normalizeLinkedInPost_nonobj v hno r hnv
      have hrd : (((some v).bind normalizeRedditPost).getD
          defaultPostResult).is_relevant = false ∧
        (((some v).bind normalizeRedditPost).getD
          defaultPostResult).summary = .str "" ∧
        (((some v).bind normalizeRedditPost).getD
          defaultPostResult).key_points = [] ∧
        (((some v).bind normalizeRedditPost).getD
          defaultPostResult).quality_score = some 0 := by
        cases hnv : normalizeRedditPost v with
        | none =>
          simp only [Option.some_bind, hnv, Option.getD_none]
          exact ⟨rfl, rfl, rfl, rfl⟩
        | some r =>
          simp only [Option.some_bind, hnv, Option.getD_some]
          exact normalizeRedditPost_nonobj v hno r hnv
      exact ⟨hli.1, hli.2.1, hli.2.2.1, hli.2.2.2, hrd.1, hrd.2.1, hrd.2.2.1,
        hrd.2.2.2⟩

/-- Witness for C8: a reply that is not valid JSON (the parse oracle
rejects it) yields the zero-valued negative defaults from all three
classifiers. -/
theorem classification_absorbs_failures_witness :
    analyzeArticleOnReply (fun _ => none) ('x' :: []) = defaultArticleResult ∧
    (analyzeRedditPostOnReply (fun _ => none) ('x' :: [])).quality_score = some 0 :=
  ⟨(classification_absorbs_failures (fun _ => none) ('x' :: []) (Or.inl rfl)).1,
   (classification_absorbs_failures (fun _ => none) ('x' :: [])
     (Or.inl rfl)).2.2.2.2.2.2.2.2⟩

-- =========================================================================
-- C9 support: string-shape facts and list lemmas
-- =========================================================================

/-- Characters a JSON document can begin with (after trimming): an object,
array or string opener, a sign or digit of a number, or the first letter of
`true` / `false` / `null`. -/
def jsonStartChar (c : Char) : Bool :=
  c = '{' || c = '[' || c = '"' || c = '-' || c.isDigit ||
    c = 't' || c = 'f' || c = 'n'

/-- Characters a JSON document can end with (after trimming): a closer, a
digit, or the last letter of `true` / `false` / `null`. -/
def jsonEndChar (c : Char) : Bool :=
  c = '}' || c = ']' || c = '"' || c.isDigit || c = 'e' || c = 'l'

/-- The shape facts a string that is valid JSON after trimming satisfies:
nonempty after trimming, starting with a JSON start character and ending
with a JSON end character (in particular, not fenced in backticks). -/
def jsonShaped (s : List Char) : Bool :=
  match jsTrim s with
  | [] => false
  | c :: cs =>
    jsonStartChar c &&
      (match (c :: cs).getLast? with
       | some d => jsonEndChar d
       | none => false)

/-- The characters `json` of the fence suffix. -/
def jsonTail : List Char := ['j', 's', 'o', 'n']

theorem head?_dropWhile_not (p : Char → Bool) (l : List Char) :
    ∀ c, ((l.dropWhile p).head? = some c) → p c = false := by
  induction l with
  | nil => intro c h; simp at h
  | cons a as ih =>
    intro c h
    rw [List.dropWhile_cons] at h
    by_cases hpa : p a = true
    · rw [if_pos hpa] at h
      exact ih c h
    · rw [if_neg hpa] at h
      rw [List.head?_cons] at h
      rw [← Option.some.inj h]
      exact Bool.not_eq_true _ ▸ Bool.of_not_eq_true hpa

theorem dropWhile_eq_self_of_head (p : Char → Bool) (l : List Char)
    (h : ∀ c, l.head? = some c → p c = false) : l.dropWhile p = l := by
  cases l with
  | nil => rfl
  | cons a as =>
    have ha := h a rfl
    rw [List.dropWhile_cons, ha]
    rfl

theorem jsTrim_eq_self (l : List Char)
    (h1 : ∀ c, l.head? = some c → jsWs c = false)
    (h2 : ∀ c, l.getLast? = some c → jsWs c = false) : jsTrim l = l := by
  unfold jsTrim
  rw [dropWhile_eq_self_of_head jsWs l h1]
  rw [dropWhile_eq_self_of_head jsWs l.reverse
    (fun c hc => h2 c (by rwa [List.head?_reverse] at hc))]
  exact List.reverse_reverse l

theorem getLast?_dropWhile_of_ne_nil (p : Char → Bool) (l : List Char)
    (h : l.dropWhile p ≠ []) : (l.dropWhile p).getLast? = l.getLast? := by
  induction l with
  | nil => exact absurd rfl h
  | cons a as ih =>
    rw [List.dropWhile_cons] at h ⊢
    by_cases hpa : p a = true
    · rw [if_pos hpa] at h ⊢
      rw [ih h]
      cases as with
      | nil => rw [List.dropWhile_nil] at h; exact absurd rfl h
      | cons b bs => rw [List.getLast?_cons_cons]
    · rw [if_neg hpa]

theorem jsTrim_idem (l : List Char) : jsTrim (jsTrim l) = jsTrim l := by
  apply jsTrim_eq_self
  · intro c hc
    unfold jsTrim at hc
    rw [List.head?_reverse] at hc
    have hne : List.dropWhile jsWs (List.dropWhile jsWs l).reverse ≠ [] := by
      intro h0
      rw [h0] at hc
      simp at hc
    rw [getLast?_dropWhile_of_ne_nil _ _ hne] at hc
    rw [List.getLast?_reverse] at hc
    exact head?_dropWhile_not jsWs l c hc
  · intro c hc
    unfold jsTrim at hc
    rw [List.getLast?_reverse] at hc
    exact head?_dropWhile_not jsWs _ c hc

theorem isPrefixOf_append_self (l t : List Char) :
    l.isPrefixOf (l ++ t) = true := by
  induction l with
  | nil => simp [List.isPrefixOf]
  | cons a as ih => simp [List.isPrefixOf, ih]

theorem isPrefixOf_append_cancel (l a b : List Char) :
    (l ++ a).isPrefixOf (l ++ b) = a.isPrefixOf b := by
  induction l with
  | nil => simp
  | cons c cs ih => simp [List.isPrefixOf, ih]

theorem isPrefixOf_cons_of_ne (a b : Char) (as bs : List Char) (h : a ≠ b) :
    (a :: as).isPrefixOf (b :: bs) = false := by
  simp [List.isPrefixOf, h]

theorem isSuffixOf_append_self (t l : List Char) :
    l.isSuffixOf (t ++ l) = true := by
  unfold List.isSuffixOf
  rw [List.reverse_append]
  exact isPrefixOf_append_self l.reverse t.reverse

theorem getLast?_append_fence (x : List Char) :
    (x ++ fenceChars).getLast? = some backtick := by
  rw [← List.head?_reverse, List.reverse_append]
  rfl

/-- C9: `parseJsonResponse` is insensitive to markdown fencing.  For every
string `s` with the shape of valid JSON after trimming (`jsonShaped`:
nonempty modulo whitespace, starting and ending with JSON delimiter
characters — in particular never starting or ending in backticks — and,
spelled out for the bare-fence case, not starting with the letters `json`),
wrapping `s` in a leading ```` ```json ```` fence (or a bare ```` ``` ````
fence) and a trailing ```` ``` ```` fence feeds exactly the same trimmed
text to `JSON.parse` (abstracted as `parse`), hence returns the same
object. -/
theorem parseJsonResponse_fence_insensitive
    (parse : List Char → Option JSValue) (s : List Char)
    (hs : jsonShaped s = true)
    (hj : jsonTail.isPrefixOf (s ++ fenceChars) = false) :
    parseJsonResponse parse (jsonFenceChars ++ s ++ fenceChars) =
      parseJsonResponse parse s ∧
    parseJsonResponse parse (fenceChars ++ s ++ fenceChars) =
      parseJsonResponse parse s := by
  unfold jsonShaped at hs
  cases ht : jsTrim s with
  | nil =>
    rw [ht] at hs
    exact absurd hs (by simp)
  | cons c cs =>
    rw [ht] at hs
    rw [Bool.and_eq_true] at hs
    obtain ⟨hstart, hend'⟩ := hs
    cases hlast : (c :: cs).getLast? with
    | none =>
      rw [hlast] at hend'
      exact absurd hend' (by simp)
    | some d =>
      rw [hlast] at hend'
      have hcb : c ≠ backtick := by
        intro e
        rw [e] at hstart
        revert hstart
        decide
      have hdb : d ≠ backtick := by
        intro e
        rw [e] at hend'
        revert hend'
        decide
      have hpre1 : jsonFenceChars.isPrefixOf (c :: cs) = false :=
        isPrefixOf_cons_of_ne backtick c _ cs (Ne.symm hcb)
      have hpre2 : fenceChars.isPrefixOf (c :: cs) = false :=
        isPrefixOf_cons_of_ne backtick c _ cs (Ne.symm hcb)
      have hsuf : fenceChars.isSuffixOf (c :: cs) = false := by
        unfold List.isSuffixOf
        have hrev : (c :: cs).reverse.head? = some d := by
          rw [List.head?_reverse]
          exact hlast
        cases hrv : (c :: cs).reverse with
        | nil => rw [hrv] at hrev; exact absurd hrev (by simp)
        | cons e es =>
          rw [hrv] at hrev
          rw [List.head?_cons] at hrev
          have he : e = d := Option.some.inj hrev
          rw [show fenceChars.reverse = [backtick, backtick, backtick] from rfl]
          exact isPrefixOf_cons_of_ne backtick e _ es
            (Ne.symm (by rw [he]; exact hdb))
      have hbase : parseJsonResponse parse s = parse (c :: cs) := by
        simp only [parseJsonResponse, ht, hpre1, hpre2, hsuf,
          Bool.false_eq_true, if_false]
        rw [← ht, jsTrim_idem, ht]
      have hsw : fenceChars.isSuffixOf (s ++ fenceChars) = true :=
        isSuffixOf_append_self s fenceChars
      have htake : (s ++ fenceChars).take ((s ++ fenceChars).length - 3) = s := by
        have hlen : (s ++ fenceChars).length - 3 = s.length := by
          simp [List.length_append, fenceChars]
        rw [hlen]
        exact List.take_left s fenceChars
      constructor
      · -- ```json fence
        have htrimw : jsTrim (jsonFenceChars ++ s ++ fenceChars) =
            jsonFenceChars ++ s ++ fenceChars := by
          apply jsTrim_eq_self
          · intro c0 hc0
            have hx : (jsonFenceChars ++ s ++ fenceChars).head? =
                some backtick := rfl
            rw [hx] at hc0
            rw [← Option.some.inj hc0]
            decide
          · intro c0 hc0
            rw [getLast?_append_fence] at hc0
            rw [← Option.some.inj hc0]
            decide
        have hw1 : jsonFenceChars.isPrefixOf
            (jsonFenceChars ++ s ++ fenceChars) = true := by
          rw [List.append_assoc]
          exact isPrefixOf_append_self _ _
        have hdrop : (jsonFenceChars ++ s ++ fenceChars).drop 7 =
            s ++ fenceChars := by
          rw [List.append_assoc]
          exact List.drop_left jsonFenceChars (s ++ fenceChars)
        rw [hbase]
        simp only [parseJsonResponse, htrimw, hw1, if_true, hdrop, hsw, htake]
        rw [ht]
      · -- bare ``` fence
        have htrimw : jsTrim (fenceChars ++ s ++ fenceChars) =
            fenceChars ++ s ++ fenceChars := by
          apply jsTrim_eq_self
          · intro c0 hc0
            have hx : (fenceChars ++ s ++ fenceChars).head? =
                some backtick := rfl
            rw [hx] at hc0
            rw [← Option.some.inj hc0]
            decide
          · intro c0 hc0
            rw [getLast?_append_fence] at hc0
            rw [← Option.some.inj hc0]
            decide
        have hw2 : jsonFenceChars.isPrefixOf
            (fenceChars ++ s ++ fenceChars) = false := by
          rw [List.append_assoc]
          rw [show jsonFenceChars = fenceChars ++ jsonTail from rfl]
          rw [isPrefixOf_append_cancel]
          exact hj
        have hw3 : fenceChars.isPrefixOf
            (fenceChars ++ s ++ fenceChars) = true := by
          rw [List.append_assoc]
          exact isPrefixOf_append_self _ _
        have hdrop : (fenceChars ++ s ++ fenceChars).drop 3 =
            s ++ fenceChars := by
          rw [List.append_assoc]
          exact List.drop_left fenceChars (s ++ fenceChars)
        rw [hbase]
        simp only [parseJsonResponse, htrimw, hw2, Bool.false_eq_true,
          if_false, hw3, if_true, hdrop, hsw, htake]
        rw [ht]

/-- The characters of the JSON document `{"a":1}`. -/
def sampleJson : List Char := ['{', '"', 'a', '"', ':', '1', '}']

/-- A concrete parse oracle for evaluating the fence-stripping witness. -/
def sampleParse : List Char → Option JSValue :=
  fun l => some (.str (String.mk l))

/-- Witness for C9 at the concrete document `{"a":1}`. -/
theorem parseJsonResponse_fence_insensitive_witness :
    parseJsonResponse sampleParse (jsonFenceChars ++ sampleJson ++ fenceChars) =
      parseJsonResponse sampleParse sampleJson ∧
    parseJsonResponse sampleParse (fenceChars ++ sampleJson ++ fenceChars) =
      parseJsonResponse sampleParse sampleJson :=
  parseJsonResponse_fence_insensitive sampleParse sampleJson (by decide)
    (by decide)
